import Mathlib

/-!
Shallow embedding of `src/visualize.py` (repository Learning_to_Survive).

The file embeds the episode-rollout-to-video pipeline
(`Visualizer.create_episode_video`, lines 65-121), the agent-position
heatmap computation (`Visualizer.plot_state_heatmap`, lines 172-202) and
the save-directory resolution at the top of `main` (lines 205-216,
together with `Visualizer.__init__`, lines 16-18).

Modelling conventions:
* Python floats are embedded as exact rationals (`ℚ`); the concrete
  values exercised by the spec (1.0, -0.5, 2.25, ...) are exactly
  representable, so no rounding questions arise in the claims.
* `info` is a Python dict or `None`; it is embedded as `Option Info`.
  Subscripting `None` (`info["health"]` when `info is None`) raises a
  `TypeError` in Python; in the embedding that shows up as the abort
  branch of the loop body.
* The environment and the agent are external collaborators driven only
  through `reset/step/render` and `select_action`; they are embedded as
  a deterministic script (`EnvScript`): `renders i` is what `env.render()`
  returns on the i-th loop iteration (0-based), `steps i a` is what the
  (i+1)-th call of `env.step(a)` does — either return a 5-tuple or raise
  (`Except.error`) — and `fallbackInfo` is `env.unwrapped._get_info()`.
* `cv2.putText` burns a text overlay into the frame; an overlay is
  embedded as (label, value rounded to one decimal — the `:.1f` format —
  and the fixed pixel position given in the source).
* The `while` loop is driven by fuel; every theorem about a run supplies
  enough fuel for the episode it describes, so the artificial
  fuel-exhaustion branch is never taken under the hypotheses.
* The video-writer side effects are recorded as an event trace
  (`VidEvent`): opening the writer, writing one frame, releasing,
  or the "No frames were captured" warning.  `writeFails j = true`
  means `out.write` raises on the j-th frame; the source's outer
  `except` block then releases the writer (`if 'out' in locals()`)
  and swallows the exception, which is why `propagated` is `false`
  on every path of the embedding, exactly as in the source.
-/

/-- The scalar status fields carried by a non-`None` `info` dict
(`health`, `hunger`, `attack`), as used by `create_episode_video`. -/
structure Info where
  health : ℚ
  hunger : ℚ
  attack : ℚ
deriving DecidableEq

/-- A raw image returned by `env.render()`: only its pixel dimensions
matter to the pipeline. -/
structure RawFrame where
  height : Nat
  width : Nat
deriving DecidableEq

/-- One text overlay burned into a frame by `cv2.putText`: the label,
the numeric value after the `:.1f` one-decimal formatting, and the
fixed pixel position. -/
structure Overlay where
  label : String
  value : ℚ
  pos : Nat × Nat
deriving DecidableEq

/-- An annotated frame as appended to `frames`. -/
structure Frame where
  height : Nat
  width : Nat
  overlays : List Overlay
deriving DecidableEq

/-- The `:.1f` format: round to one decimal place. -/
def oneDec (q : ℚ) : ℚ := ((round (10 * q) : ℤ) : ℚ) / 10

/-- Lines 78-89 of the source: convert the colour space (dimension
preserving), burn the four `cv2.putText` overlays in source order —
Health, Hunger, Attack, Reward (the running total) — at positions
(10,20), (10,40), (10,60), (10,80), each value formatted `:.1f`. -/
def annotate (raw : RawFrame) (inf : Info) (tot : ℚ) : Frame :=
  { height := raw.height, width := raw.width,
    overlays := [⟨"Health", oneDec inf.health, (10, 20)⟩,
                 ⟨"Hunger", oneDec inf.hunger, (10, 40)⟩,
                 ⟨"Attack", oneDec inf.attack, (10, 60)⟩,
                 ⟨"Reward", oneDec tot, (10, 80)⟩] }

/-- A deterministic script for the environment collaborator. -/
structure EnvScript where
  resetState : Nat
  resetInfo : Option Info
  renders : Nat → Option RawFrame
  steps : Nat → Nat → Except Unit (Nat × ℚ × Bool × Bool × Option Info)
  fallbackInfo : Info

/-- The agent collaborator: `select_action(state, info, training=False)`. -/
def Agent : Type := Nat → Info → Nat

/-- The mutable locals of the `while` loop in `create_episode_video`:
iteration index (= number of completed `env.step` calls), `state`,
`info`, `done`, `truncated`, `total_reward` and the `frames` list. -/
structure LoopSt where
  i : Nat
  state : Nat
  info : Option Info
  done : Bool
  truncated : Bool
  total : ℚ
  frames : List Frame
deriving DecidableEq

/-- Lines 91-99: the tail of one loop iteration after rendering.
`frames'` is the frames list after the (possible) append; `inf` is the
info value used for `agent.select_action` — the fallback
`env.unwrapped._get_info()` when `info` was `None`.  `env.step` either
raises (inner `except` → `break`, embedded as `Sum.inr`) or returns the
5-tuple, after which `total_reward` accumulates and `state`, `info`
advance (`Sum.inl`). -/
def stepPart (env : EnvScript) (agent : Agent) (s : LoopSt)
    (frames' : List Frame) (inf : Info) : LoopSt ⊕ LoopSt :=
  match env.steps s.i (agent s.state inf) with
  | Except.error _ => Sum.inr { s with frames := frames' }
  | Except.ok (st', r, dn, tr, ni) =>
      Sum.inl { i := s.i + 1, state := st', info := ni, done := dn,
                truncated := tr, total := s.total + r, frames := frames' }

/-- Lines 75-102: the body of one `while` iteration, inside the inner
`try`.  `env.render()` is called first; if it returns a frame while
`info` is `None`, the `info["health"]` subscript in `cv2.putText`
raises a `TypeError` before the frame is appended, which the inner
`except` turns into `break` (`Sum.inr` with state unchanged).  When a
frame is returned and `info` is present the annotated frame is
appended.  Only after the render block does the `if info is None`
fallback run. -/
def iterBody (env : EnvScript) (agent : Agent) (s : LoopSt) : LoopSt ⊕ LoopSt :=
  match env.renders s.i, s.info with
  | some _, none => Sum.inr s
  | some raw, some inf =>
      stepPart env agent s (s.frames ++ [annotate raw inf s.total]) inf
  | none, some inf => stepPart env agent s s.frames inf
  | none, none => stepPart env agent s s.frames env.fallbackInfo

/-- Line 74: `while not (done or truncated)`, driven by fuel.  The
second component records whether the loop ended through the inner
`except`'s `break` (`true`) or by the loop condition (`false`). -/
def runLoop (env : EnvScript) (agent : Agent) : Nat → LoopSt → LoopSt × Bool
  | 0, s => (s, false)
  | fuel + 1, s =>
      if s.done || s.truncated then (s, false)
      else
        match iterBody env agent s with
        | Sum.inl s' => runLoop env agent fuel s'
        | Sum.inr s' => (s', true)

/-- Lines 68-73: the locals right after `env.reset()`. -/
def initSt (env : EnvScript) : LoopSt :=
  ⟨0, env.resetState, env.resetInfo, false, false, 0, []⟩

/-- Observable side effects of the video-writing phase. -/
inductive VidEvent where
  | openWriter (width height : Nat)
  | write (f : Frame)
  | release
  | warnNoFrames
deriving DecidableEq

/-- Lines 109-110: `for frame in frames: out.write(frame)`, where
`writeFails j = true` means `out.write` raises on the j-th frame (no
event is recorded for the failed write, and the loop stops there). -/
def writeEvents : List Frame → (Nat → Bool) → Nat → List VidEvent
  | [], _, _ => []
  | f :: fs, wf, j =>
      if wf j then [] else VidEvent.write f :: writeEvents fs wf (j + 1)

/-- Lines 104-121: if `frames` is non-empty, take (height, width) from
`frames[0]`, open the writer at `(width, height)`, write the frames,
and release — `out.release()` happens both on the normal path
(line 112) and, when a write raises, in the outer `except` handler
(lines 120-121, `if 'out' in locals'`).  If `frames` is empty, only
the "No frames were captured" warning is printed. -/
def writePhase (frames : List Frame) (wf : Nat → Bool) : List VidEvent :=
  match frames with
  | [] => [VidEvent.warnNoFrames]
  | f :: _ =>
      VidEvent.openWriter f.width f.height ::
        (writeEvents frames wf 0 ++ [VidEvent.release])

/-- The observable outcome of one `create_episode_video` call. -/
structure RecordResult where
  frames : List Frame
  totalReward : ℚ
  aborted : Bool
  events : List VidEvent
  propagated : Bool
deriving DecidableEq

/-- Lines 65-121: the whole of `Visualizer.create_episode_video`.
`propagated := false` because every raising path is caught: per-step
errors by the inner `except` (line 100), writer errors by the outer
`except` (line 118), and neither handler re-raises. -/
def create_episode_video (env : EnvScript) (agent : Agent) (fuel : Nat)
    (wf : Nat → Bool) : RecordResult :=
  let r := runLoop env agent fuel (initSt env)
  { frames := r.1.frames, totalReward := r.1.total, aborted := r.2,
    events := writePhase r.1.frames wf, propagated := false }

/-- `j = 0 ↦ a, j + 1 ↦ f j`: the info value visible when rendering
iteration `j` of a run whose reset info is `a` and whose step calls
return infos `f 0, f 1, ...`. -/
def consf (a : Info) (f : Nat → Info) : Nat → Info
  | 0 => a
  | j + 1 => f j

/-!
Embedding of `Visualizer.plot_state_heatmap` (lines 172-202).  A state
grid from the evaluation-results file is a `List (List Int)` of cell
codes; the value 4 marks the agent's cell.  `np.where(state_array == 4)`
lists matching indices in row-major (C) order, and the source takes
`agent_pos[0][0], agent_pos[1][0]` — the first match in row-major
order — or skips the grid when there is no match.
-/

/-- Index of the first cell equal to 4 in one row. -/
def findIdx4 : List Int → Option Nat
  | [] => none
  | c :: cs => if c = 4 then some 0 else (findIdx4 cs).map (· + 1)

/-- Row-major search for the first cell equal to 4, the first row
carrying index `i`. -/
def findAgentFrom : Nat → List (List Int) → Option (Nat × Nat)
  | _, [] => none
  | i, r :: rs =>
      match findIdx4 r with
      | some j => some (i, j)
      | none => findAgentFrom (i + 1) rs

/-- Lines 181-184: position of the first cell equal to 4 in row-major
order, if any. -/
def findAgent (g : List (List Int)) : Option (Nat × Nat) := findAgentFrom 0 g

/-- Lines 179-185 restricted to one episode: each state grid
contributes its agent position when one exists. -/
def episodePositions (states : List (List (List Int))) : List (Nat × Nat) :=
  states.filterMap findAgent

/-- Lines 179-185: the `positions` list over all episodes of the
results file, in iteration order. -/
def allPositions (results : List (List (List (List Int)))) : List (Nat × Nat) :=
  (results.map episodePositions).flatten

/-- Lines 188-190: `position_counts[x, y]` after the increment loop. -/
def countAt (ps : List (Nat × Nat)) (x y : Nat) : Nat := ps.count (x, y)

/-- `position_counts.max()`: the largest count over the
`grid_size × grid_size` array. -/
def maxCount (gs : Nat) (ps : List (Nat × Nat)) : Nat :=
  (Finset.range gs ×ˢ Finset.range gs).sup fun p => countAt ps p.1 p.2

/-- Lines 192-193: the heatmap cell value — the count divided by the
maximum when that maximum is strictly positive, the raw count
otherwise. -/
def heatValue (gs : Nat) (ps : List (Nat × Nat)) (x y : Nat) : ℚ :=
  if 0 < maxCount gs ps then (countAt ps x y : ℚ) / (maxCount gs ps : ℚ)
  else (countAt ps x y : ℚ)

/-- The Prop "cell (x, y) holds the first 4 of grid `g` in row-major
order": the cell exists and equals 4, every earlier cell of the same
row differs from 4, and every earlier row contains no 4 at all. -/
def firstFourAt (g : List (List Int)) (x y : Nat) : Prop :=
  (∃ row, g[x]? = some row ∧ row[y]? = some 4 ∧
      ∀ y' c, y' < y → row[y']? = some c → c ≠ 4) ∧
  ∀ x' row', x' < x → g[x']? = some row' → (4 : Int) ∉ row'

/-!
Embedding of `main` (lines 205-216) and `Visualizer.__init__`
(lines 16-18).  Only the part up to and including the `Visualizer`
construction has control content; everything after it is modelled as
the list of output files the remaining calls write, gated by which
optional inputs exist.
-/

/-- `os.makedirs(path, exist_ok=True)`: raises `TypeError` when `path`
is `None` (the Python standard library rejects a `None` path), succeeds
otherwise.  Line 18 of the source calls it from `Visualizer.__init__`. -/
def makedirs : Option String → Except String Unit
  | none => Except.error "TypeError"
  | some _ => Except.ok ()

/-- Lines 213-214: `save_dir` is derived from `timestamp` only when
`save_dir is None and timestamp is not None`; otherwise it is kept. -/
def resolveSaveDir (save_dir timestamp : Option String) : Option String :=
  match save_dir, timestamp with
  | none, some ts => some (String.append "results/evaluation/experiment_" ts)
  | sd, _ => sd

/-- Observable outcome of a `main` run: the output files written and
whether the run finished or died on an uncaught exception. -/
structure MainResult where
  filesWritten : List String
  outcome : Except String Unit

/-- Lines 205-266 of `main`, with the three optional inputs abstracted
to existence flags.  The `Visualizer` constructor (line 216) calls
`makedirs` on the resolved save directory; when that raises, the
exception is uncaught, the run terminates, and no output file has been
written yet — every file-producing call comes after line 216. -/
def mainRun (tb_ok eval_ok model_ok : Bool) (save_dir timestamp : Option String) :
    MainResult :=
  let sd := resolveSaveDir save_dir timestamp
  match makedirs sd with
  | Except.error e => ⟨[], Except.error e⟩
  | Except.ok _ =>
      ⟨(if tb_ok then ["training_curves.png"] else []) ++
       (if eval_ok then ["action_distribution.png", "state_heatmap.png"] else []) ++
       (if model_ok then ["episode.mp4", "value_function.png"] else []),
       Except.ok ()⟩

/-! Concrete scripts for counterexamples and witnesses. -/

/-- A 4×4 raw frame. -/
def rawA : RawFrame := ⟨4, 4⟩

/-- A 3×4 raw frame. -/
def rawB : RawFrame := ⟨3, 4⟩

/-- A 2×2 raw frame. -/
def rawC : RawFrame := ⟨2, 2⟩

/-- The stub info of §8.5 of the spec: health 55.0, hunger 12.34,
attack 40.0. -/
def infA : Info := ⟨55, 1234 / 100, 40⟩

/-- A writer whose `out.write` never raises. -/
def nofail : Nat → Bool := fun _ => false

/-- A stub agent that always picks action 0. -/
def agZero : Agent := fun _ _ => 0

/-- Stub: renders a frame each iteration; the first `step` succeeds
(reward 1, episode continues), the second raises. -/
def envE1 : EnvScript :=
  ⟨0, some infA, fun _ => some rawA,
   fun i _ => if i = 0 then Except.ok (1, 1, false, false, some infA)
              else Except.error (), infA⟩

/-- Stub: `reset` returns a `None` info while `render` still returns a
frame; every `step` would succeed. -/
def envE2 : EnvScript :=
  ⟨0, none, fun _ => some rawA,
   fun _ _ => Except.ok (1, 1, false, false, some infA), infA⟩

/-- Stub: `reset` returns a `None` info and `render` returns `None`;
every `step` succeeds. -/
def envE2n : EnvScript :=
  ⟨0, none, fun _ => none,
   fun _ _ => Except.ok (1, 1, false, false, some infA), infA⟩

/-- Stub: renders every iteration, terminates on the 2nd step call. -/
def envE3 : EnvScript :=
  ⟨0, some infA, fun _ => some rawA,
   fun i _ => Except.ok (i + 1, 1, i == 1, false, some infA), infA⟩

/-- The per-step rewards of §8.6 of the spec: 1.0, -0.5, 2.25. -/
def rwE4 : Nat → ℚ := fun i => if i = 0 then 1 else if i = 1 then -1 / 2 else 9 / 4

/-- Stub: renders every iteration, per-step rewards 1.0, -0.5, 2.25,
terminates on the 3rd step call. -/
def envE4 : EnvScript :=
  ⟨0, some infA, fun _ => some rawA,
   fun i _ => Except.ok (i + 1, rwE4 i, i == 2, false, some infA), infA⟩

/-- Stub: `render` always returns `None`; the first step terminates. -/
def envE5 : EnvScript :=
  ⟨0, some infA, fun _ => none,
   fun _ _ => Except.ok (1, 0, true, false, some infA), infA⟩

/-- Per-step rewards 7.89 then 0. -/
def rwE6 : Nat → ℚ := fun i => if i = 0 then 789 / 100 else 0

/-- Stub: renders every iteration, first step reward 7.89, terminates
on the 2nd step call. -/
def envE6 : EnvScript :=
  ⟨0, some infA, fun _ => some rawA,
   fun i _ => Except.ok (i + 1, rwE6 i, i == 1, false, some infA), infA⟩

/-- Stub: renders a 3×4 frame on the first iteration and a 2×2 frame on
the second, terminating on the 2nd step call — heterogeneous frame
sizes. -/
def envE8 : EnvScript :=
  ⟨0, some infA, fun i => if i = 0 then some rawB else some rawC,
   fun i _ => Except.ok (i + 1, 0, i == 1, false, some infA), infA⟩

/-- A 2×2 state grid whose agent cell (value 4) is at (1, 1). -/
def gridA : List (List Int) := [[0, 0], [0, 4]]

/-- A 2×2 state grid with no agent cell. -/
def gridB : List (List Int) := [[0, 0], [0, 0]]

/-- A one-episode evaluation-results stub with two recorded states. -/
def resultsE9 : List (List (List (List Int))) := [[gridA, gridB, gridA]]

/-- Whether an event opens the video writer. -/
def isOpenEvent : VidEvent → Bool
  | VidEvent.openWriter _ _ => true
  | _ => false

/-- Number of writer-opening events in a trace — the number of video
files the call starts writing. -/
def openCount (es : List VidEvent) : Nat := es.countP isOpenEvent

/-! Single-iteration unfolding lemmas for the rollout loop. -/

/-- The loop exits without running its body as soon as `done or
truncated` holds (or when fuel is exhausted). -/
theorem runLoop_exit (env : EnvScript) (agent : Agent) (fuel : Nat) (s : LoopSt)
    (h : (s.done || s.truncated) = true) :
    runLoop env agent fuel s = (s, false) := by
  cases fuel with
  | zero => rfl
  | succ f => simp [runLoop, h]

/-- One successful iteration: render returns a frame, `info` is
present, `env.step` succeeds — the annotated frame is appended, the
reward accumulates, and the loop recurses on the advanced state. -/
theorem runLoop_cons (env : EnvScript) (agent : Agent) (fuel : Nat) (s : LoopSt)
    (i0 : Info) (raw : RawFrame) (st' : Nat) (r : ℚ) (dn tr : Bool)
    (ni : Option Info)
    (hd : s.done = false) (ht : s.truncated = false)
    (hi : s.info = some i0) (hr : env.renders s.i = some raw)
    (hs : env.steps s.i (agent s.state i0) = Except.ok (st', r, dn, tr, ni)) :
    runLoop env agent (fuel + 1) s =
      runLoop env agent fuel
        ⟨s.i + 1, st', ni, dn, tr, s.total + r,
         s.frames ++ [annotate raw i0 s.total]⟩ := by
  simp [runLoop, hd, ht, iterBody, hr, hi, stepPart, hs]

/-- One aborting iteration: render returns a frame, `info` is present,
but `env.step` raises — the frame rendered in this iteration is kept
and the loop breaks. -/
theorem runLoop_stepAbort (env : EnvScript) (agent : Agent) (fuel : Nat)
    (s : LoopSt) (i0 : Info) (raw : RawFrame)
    (hd : s.done = false) (ht : s.truncated = false)
    (hi : s.info = some i0) (hr : env.renders s.i = some raw)
    (hs : env.steps s.i (agent s.state i0) = Except.error ()) :
    runLoop env agent (fuel + 1) s =
      ({ s with frames := s.frames ++ [annotate raw i0 s.total] }, true) := by
  simp [runLoop, hd, ht, iterBody, hr, hi, stepPart, hs]

/-- One aborting iteration of the other kind: render returns a frame
while `info` is `None`, so `info["health"]` raises before the frame is
appended, and the loop breaks with nothing changed. -/
theorem runLoop_annotateAbort (env : EnvScript) (agent : Agent) (fuel : Nat)
    (s : LoopSt) (raw : RawFrame)
    (hd : s.done = false) (ht : s.truncated = false)
    (hi : s.info = none) (hr : env.renders s.i = some raw) :
    runLoop env agent (fuel + 1) s = (s, true) := by
  simp [runLoop, hd, ht, iterBody, hr, hi]

/-- Evaluating `consf` at a one-step shift of its own source. -/
theorem consf_shift (g : Nat → Info) (j : Nat) :
    consf (g 0) (fun k => g (k + 1)) j = g j := by
  cases j <;> rfl

/-- Splitting a running total over `m + 1` rewards after its first
term. -/
theorem sum_shift (rw : Nat → ℚ) (tot : ℚ) (m : Nat) :
    tot + ∑ l ∈ Finset.range (m + 1), rw l
      = (tot + rw 0) + ∑ l ∈ Finset.range m, rw (l + 1) := by
  rw [Finset.sum_range_succ']; ring

/-- The frame list produced by `m + 1` good iterations, split after
its first frame. -/
theorem framesMap_shift (rawf : Nat → RawFrame) (i0 : Info) (inf : Nat → Info)
    (rw : Nat → ℚ) (tot : ℚ) (m : Nat) :
    (List.range (m + 1)).map (fun j =>
        annotate (rawf j) (consf i0 inf j) (tot + ∑ l ∈ Finset.range j, rw l))
      = annotate (rawf 0) i0 tot ::
        (List.range m).map (fun j =>
          annotate (rawf (j + 1)) (consf (inf 0) (fun k => inf (k + 1)) j)
            ((tot + rw 0) + ∑ l ∈ Finset.range j, rw (l + 1))) := by
  rw [List.range_succ_eq_map, List.map_cons, List.map_map]
  refine congrArg₂ _ (by simp [consf]) ?_
  refine List.map_congr_left fun j _ => ?_
  show annotate (rawf (j + 1)) (consf i0 inf (j + 1))
      (tot + ∑ l ∈ Finset.range (j + 1), rw l) = _
  rw [consf_shift, sum_shift]
  rfl

/-- Master lemma, normal termination: from a live loop state carrying
info `i0`, if the next `m + 1` iterations each render a frame and
their step calls succeed — flags first becoming terminal at step
index `m` — the loop exits through its condition having appended
exactly those `m + 1` annotated frames (the j-th annotated with the
info visible at iteration j and the running total so far) and having
accumulated exactly the `m + 1` rewards. -/
theorem runLoop_good (env : EnvScript) (agent : Agent) :
    ∀ (m : Nat) (stf : Nat → Nat) (rw : Nat → ℚ) (inf : Nat → Info)
      (d t : Nat → Bool) (rawf : Nat → RawFrame) (fuel : Nat) (s : LoopSt)
      (i0 : Info),
      m + 1 < fuel →
      s.done = false → s.truncated = false → s.info = some i0 →
      (∀ j, j ≤ m → env.renders (s.i + j) = some (rawf j)) →
      (∀ j a, j ≤ m → env.steps (s.i + j) a
          = Except.ok (stf j, rw j, d j, t j, some (inf j))) →
      (∀ j, j < m → d j = false ∧ t j = false) →
      (d m || t m) = true →
      (runLoop env agent fuel s).1.frames
          = s.frames ++ (List.range (m + 1)).map (fun j =>
              annotate (rawf j) (consf i0 inf j)
                (s.total + ∑ l ∈ Finset.range j, rw l)) ∧
      (runLoop env agent fuel s).1.total
          = s.total + ∑ l ∈ Finset.range (m + 1), rw l ∧
      (runLoop env agent fuel s).2 = false := by
  intro m
  induction m with
  | zero =>
    intro stf rw inf d t rawf fuel s i0 hfuel hd ht hi hrend hstep hflag hlast
    obtain ⟨f, rfl⟩ : ∃ f, fuel = f + 1 := ⟨fuel - 1, by omega⟩
    have h0 := hrend 0 (le_refl 0)
    rw [Nat.add_zero] at h0
    have hs := hstep 0 (agent s.state i0) (le_refl 0)
    rw [Nat.add_zero] at hs
    rw [runLoop_cons env agent f s i0 (rawf 0) (stf 0) (rw 0) (d 0) (t 0)
      (some (inf 0)) hd ht hi h0 hs]
    rw [runLoop_exit env agent f _ (by simpa using hlast)]
    refine ⟨?_, ?_, rfl⟩
    · conv_rhs => rw [framesMap_shift]
      simp
    · simp
  | succ m ih =>
    intro stf rw inf d t rawf fuel s i0 hfuel hd ht hi hrend hstep hflag hlast
    obtain ⟨f, rfl⟩ : ∃ f, fuel = f + 1 := ⟨fuel - 1, by omega⟩
    have h0 := hrend 0 (Nat.zero_le _)
    rw [Nat.add_zero] at h0
    have hs := hstep 0 (agent s.state i0) (Nat.zero_le _)
    rw [Nat.add_zero] at hs
    rw [runLoop_cons env agent f s i0 (rawf 0) (stf 0) (rw 0) (d 0) (t 0)
      (some (inf 0)) hd ht hi h0 hs]
    have hflag0 := hflag 0 (Nat.succ_pos m)
    have key := ih (fun j => stf (j + 1)) (fun j => rw (j + 1))
      (fun j => inf (j + 1)) (fun j => d (j + 1)) (fun j => t (j + 1))
      (fun j => rawf (j + 1)) f
      ⟨s.i + 1, stf 0, some (inf 0), d 0, t 0, s.total + rw 0,
       s.frames ++ [annotate (rawf 0) i0 s.total]⟩ (inf 0)
      (by omega) hflag0.1 hflag0.2 rfl
      (by
        intro j hj
        show env.renders (s.i + 1 + j) = some (rawf (j + 1))
        rw [Nat.add_assoc, Nat.add_comm 1 j]
        exact hrend (j + 1) (by omega))
      (by
        intro j a hj
        show env.steps (s.i + 1 + j) a = _
        rw [Nat.add_assoc, Nat.add_comm 1 j]
        exact hstep (j + 1) a (by omega))
      (by intro j hj; exact hflag (j + 1) (by omega))
      hlast
    refine ⟨?_, ?_, key.2.2⟩
    · rw [key.1]
      conv_rhs => rw [framesMap_shift]
      simp
    · rw [key.2.1]
      conv_rhs => rw [sum_shift]

/-- Master lemma, early abort: from a live loop state carrying info
`i0`, if the next `m` iterations succeed (flags staying false) and on
iteration `m` render still returns a frame but `env.step` raises, the
loop breaks having appended `m + 1` annotated frames — the frame of
the failing iteration included — while only the first `m` rewards were
accumulated. -/
theorem runLoop_abortRun (env : EnvScript) (agent : Agent) :
    ∀ (m : Nat) (stf : Nat → Nat) (rw : Nat → ℚ) (inf : Nat → Info)
      (rawf : Nat → RawFrame) (fuel : Nat) (s : LoopSt) (i0 : Info),
      m < fuel →
      s.done = false → s.truncated = false → s.info = some i0 →
      (∀ j, j ≤ m → env.renders (s.i + j) = some (rawf j)) →
      (∀ j a, j < m → env.steps (s.i + j) a
          = Except.ok (stf j, rw j, false, false, some (inf j))) →
      (∀ a, env.steps (s.i + m) a = Except.error ()) →
      (runLoop env agent fuel s).1.frames
          = s.frames ++ (List.range (m + 1)).map (fun j =>
              annotate (rawf j) (consf i0 inf j)
                (s.total + ∑ l ∈ Finset.range j, rw l)) ∧
      (runLoop env agent fuel s).1.total
          = s.total + ∑ l ∈ Finset.range m, rw l ∧
      (runLoop env agent fuel s).2 = true := by
  intro m
  induction m with
  | zero =>
    intro stf rw inf rawf fuel s i0 hfuel hd ht hi hrend hstep herr
    obtain ⟨f, rfl⟩ : ∃ f, fuel = f + 1 := ⟨fuel - 1, by omega⟩
    have h0 := hrend 0 (le_refl 0)
    rw [Nat.add_zero] at h0
    have hs := herr (agent s.state i0)
    rw [Nat.add_zero] at hs
    rw [runLoop_stepAbort env agent f s i0 (rawf 0) hd ht hi h0 hs]
    refine ⟨?_, ?_, rfl⟩
    · conv_rhs => rw [framesMap_shift]
      simp
    · simp
  | succ m ih =>
    intro stf rw inf rawf fuel s i0 hfuel hd ht hi hrend hstep herr
    obtain ⟨f, rfl⟩ : ∃ f, fuel = f + 1 := ⟨fuel - 1, by omega⟩
    have h0 := hrend 0 (Nat.zero_le _)
    rw [Nat.add_zero] at h0
    have hs := hstep 0 (agent s.state i0) (Nat.succ_pos m)
    rw [Nat.add_zero] at hs
    rw [runLoop_cons env agent f s i0 (rawf 0) (stf 0) (rw 0) false false
      (some (inf 0)) hd ht hi h0 hs]
    have key := ih (fun j => stf (j + 1)) (fun j => rw (j + 1))
      (fun j => inf (j + 1)) (fun j => rawf (j + 1)) f
      ⟨s.i + 1, stf 0, some (inf 0), false, false, s.total + rw 0,
       s.frames ++ [annotate (rawf 0) i0 s.total]⟩ (inf 0)
      (by omega) rfl rfl rfl
      (by
        intro j hj
        show env.renders (s.i + 1 + j) = some (rawf (j + 1))
        rw [Nat.add_assoc, Nat.add_comm 1 j]
        exact hrend (j + 1) (by omega))
      (by
        intro j a hj
        show env.steps (s.i + 1 + j) a = _
        rw [Nat.add_assoc, Nat.add_comm 1 j]
        exact hstep (j + 1) a (by omega))
      (by
        intro a
        show env.steps (s.i + 1 + m) a = _
        rw [Nat.add_assoc, Nat.add_comm 1 m]
        exact herr a)
    refine ⟨?_, ?_, key.2.2⟩
    · rw [key.1]
      conv_rhs => rw [framesMap_shift]
      simp
    · rw [key.2.1]
      conv_rhs => rw [sum_shift]


/-- With a writer whose `out.write` never raises, the frame loop
writes every frame in order. -/
theorem writeEvents_nofail : ∀ (fs : List Frame) (j : Nat),
    writeEvents fs nofail j = fs.map VidEvent.write := by
  intro fs
  induction fs with
  | nil => intro j; rfl
  | cons f fs ih => intro j; simp [writeEvents, nofail, ih]

/-- With a non-empty frames list and no write failure, the writing
phase opens the writer at the first frame's (width, height), writes
every frame unchanged in order, and releases. -/
theorem writePhase_ne_nil (frames : List Frame) (h : frames ≠ []) :
    ∃ w ht, writePhase frames nofail
      = VidEvent.openWriter w ht ::
        (frames.map VidEvent.write ++ [VidEvent.release]) := by
  cases frames with
  | nil => exact absurd rfl h
  | cons f fs =>
      exact ⟨f.width, f.height, by rw [writePhase, writeEvents_nofail]⟩

/-- The frame-writing loop never opens a writer. -/
theorem openCount_writeEvents (fs : List Frame) (wf : Nat → Bool) :
    ∀ j, openCount (writeEvents fs wf j) = 0 := by
  induction fs with
  | nil => intro j; rfl
  | cons f fs ih =>
      intro j
      unfold writeEvents
      by_cases h : wf j
      · rw [if_pos h]; rfl
      · rw [if_neg h]
        have h2 := ih (j + 1)
        rw [openCount] at h2 ⊢
        rw [List.countP_cons, h2]
        rfl

/-- The writing phase opens at most one writer, whatever the frames
and whatever write failures occur. -/
theorem openCount_writePhase (frames : List Frame) (wf : Nat → Bool) :
    openCount (writePhase frames wf) ≤ 1 := by
  cases frames with
  | nil => rw [writePhase]; decide
  | cons f fs =>
      rw [writePhase, openCount, List.countP_cons, List.countP_append]
      have h0 := openCount_writeEvents (f :: fs) wf 0
      rw [openCount] at h0
      rw [h0]
      rfl

/-- When `env.render()` always returns `None`, no iteration ever
appends a frame, whatever else happens. -/
theorem runLoop_frames_none (env : EnvScript) (agent : Agent)
    (h : ∀ i, env.renders i = none) :
    ∀ (fuel : Nat) (s : LoopSt), (runLoop env agent fuel s).1.frames = s.frames := by
  intro fuel
  induction fuel with
  | zero => intro s; rfl
  | succ f ih =>
      intro s
      by_cases hd : (s.done || s.truncated) = true
      · rw [runLoop_exit env agent _ s hd]
      · have hd' : (s.done || s.truncated) = false := by
          simpa using hd
        simp only [runLoop, hd', Bool.false_eq_true, if_false]
        cases hi : s.info with
        | none =>
            simp only [iterBody, h s.i, hi, stepPart]
            cases hs : env.steps s.i (agent s.state env.fallbackInfo) with
            | error e => rfl
            | ok v =>
                obtain ⟨st', r, dn, tr, ni⟩ := v
                exact ih _
        | some i0 =>
            simp only [iterBody, h s.i, hi, stepPart]
            cases hs : env.steps s.i (agent s.state i0) with
            | error e => rfl
            | ok v =>
                obtain ⟨st', r, dn, tr, ni⟩ := v
                exact ih _

/-- A row without a 4 is exactly one on which `findIdx4` fails. -/
theorem findIdx4_eq_none (row : List Int) :
    findIdx4 row = none ↔ (4 : Int) ∉ row := by
  induction row with
  | nil => simp [findIdx4]
  | cons c cs ih =>
      by_cases h : c = 4
      · simp [findIdx4, h]
      · rw [findIdx4, if_neg h]
        simp only [Option.map_eq_none', ih, List.mem_cons, not_or]
        constructor
        · intro hcs; exact ⟨fun hh => h hh.symm, hcs⟩
        · intro hh; exact hh.2

/-- `findIdx4` finds exactly the first cell of the row equal to 4. -/
theorem findIdx4_eq_some (row : List Int) : ∀ (j : Nat), findIdx4 row = some j →
    row[j]? = some 4 ∧ ∀ j' c, j' < j → row[j']? = some c → c ≠ 4 := by
  induction row with
  | nil => intro j h; simp [findIdx4] at h
  | cons c cs ih =>
      intro j h
      by_cases hc : c = 4
      · rw [findIdx4, if_pos hc] at h
        injection h with h
        subst h
        exact ⟨by simp [hc], fun j' cc hj' _ => absurd hj' (Nat.not_lt_zero j')⟩
      · rw [findIdx4, if_neg hc] at h
        cases hcs : findIdx4 cs with
        | none => rw [hcs] at h; simp at h
        | some k =>
            rw [hcs] at h
            simp only [Option.map_some'] at h
            injection h with h
            subst h
            obtain ⟨h1, h2⟩ := ih k hcs
            refine ⟨by simpa using h1, ?_⟩
            intro j' cc hj' hg
            cases j' with
            | zero =>
                rw [List.getElem?_cons_zero] at hg
                injection hg with hg
                subst hg
                exact hc
            | succ j'' =>
                rw [List.getElem?_cons_succ] at hg
                exact h2 j'' cc (by omega) hg

/-- `findAgentFrom i` finds the first row (at absolute index `i + k`)
whose `findIdx4` succeeds, all earlier rows containing no 4. -/
theorem findAgentFrom_eq_some (g : List (List Int)) : ∀ (i x y : Nat),
    findAgentFrom i g = some (x, y) →
    ∃ k, x = i + k ∧ (∃ row, g[k]? = some row ∧ findIdx4 row = some y) ∧
      ∀ k' row', k' < k → g[k']? = some row' → findIdx4 row' = none := by
  induction g with
  | nil => intro i x y h; simp [findAgentFrom] at h
  | cons r rs ih =>
      intro i x y h
      rw [findAgentFrom] at h
      cases hr : findIdx4 r with
      | some j =>
          rw [hr] at h
          injection h with h
          injection h with h1 h2
          subst h1
          subst h2
          exact ⟨0, by omega, ⟨r, by simp, hr⟩,
            fun k' row' hk' _ => absurd hk' (Nat.not_lt_zero k')⟩
      | none =>
          rw [hr] at h
          obtain ⟨k, hk, ⟨row, hrow, hidx⟩, hbefore⟩ := ih (i + 1) x y h
          refine ⟨k + 1, by omega, ⟨row, by simpa using hrow, hidx⟩, ?_⟩
          intro k' row' hk' hg
          cases k' with
          | zero =>
              rw [List.getElem?_cons_zero] at hg
              injection hg with hg
              subst hg
              exact hr
          | succ k'' =>
              rw [List.getElem?_cons_succ] at hg
              exact hbefore k'' row' (by omega) hg

/-- The position returned by `findAgent` is exactly the first cell
equal to 4 in row-major order. -/
theorem findAgent_firstFour (g : List (List Int)) (x y : Nat)
    (h : findAgent g = some (x, y)) : firstFourAt g x y := by
  obtain ⟨k, hk, ⟨row, hrow, hidx⟩, hbefore⟩ := findAgentFrom_eq_some g 0 x y h
  have hx : x = k := by omega
  subst hx
  obtain ⟨h1, h2⟩ := findIdx4_eq_some row y hidx
  exact ⟨⟨row, hrow, h1, h2⟩,
    fun x' row' hx' hg => (findIdx4_eq_none row').mp (hbefore x' row' hx' hg)⟩

/-- A grid with no cell equal to 4 contributes no position. -/
theorem findAgent_eq_none (g : List (List Int))
    (h : ∀ row ∈ g, (4 : Int) ∉ row) : findAgent g = none := by
  rw [findAgent]
  suffices hgen : ∀ i, findAgentFrom i g = none from hgen 0
  induction g with
  | nil => intro i; rfl
  | cons r rs ih =>
      intro i
      rw [findAgentFrom,
        (findIdx4_eq_none r).mpr (h r (List.mem_cons_self r rs))]
      exact ih (fun row hrow => h row (List.mem_cons_of_mem r hrow)) (i + 1)

/-- Every in-range cell's count is bounded by the array maximum. -/
theorem countAt_le_maxCount (gs : Nat) (ps : List (Nat × Nat)) (x y : Nat)
    (hx : x < gs) (hy : y < gs) : countAt ps x y ≤ maxCount gs ps := by
  have hmem : (x, y) ∈ Finset.range gs ×ˢ Finset.range gs := by
    simp [Finset.mem_product, hx, hy]
  have h2 := @Finset.le_sup Nat (Nat × Nat) _ _
    (Finset.range gs ×ˢ Finset.range gs)
    (fun p : Nat × Nat => countAt ps p.1 p.2) (x, y) hmem
  simpa [maxCount] using h2

/-- Every in-range heatmap value lies in the unit interval. -/
theorem heatValue_unit (gs : Nat) (ps : List (Nat × Nat)) (x y : Nat)
    (hx : x < gs) (hy : y < gs) :
    0 ≤ heatValue gs ps x y ∧ heatValue gs ps x y ≤ 1 := by
  have hle := countAt_le_maxCount gs ps x y hx hy
  rw [heatValue]
  by_cases h : 0 < maxCount gs ps
  · rw [if_pos h]
    constructor
    · apply div_nonneg
      · exact_mod_cast Nat.zero_le _
      · exact_mod_cast Nat.zero_le _
    · rw [div_le_one (by exact_mod_cast h)]
      exact_mod_cast hle
  · rw [if_neg h]
    have h0 : countAt ps x y = 0 := by omega
    rw [h0]
    norm_num

/-- C1 counterexample: with `render` returning a frame every iteration
and `step()` raising on the 2nd call (K = 2, so K-1 = 1 ≥ 1),
`create_episode_video` collects 2 frames, not the K-1 = 1 the claim
states — the frame rendered in the failing iteration was already
appended before `env.step` raised. -/
theorem C1_counterexample :
    envE1.steps 0 0 = Except.ok (1, 1, false, false, some infA) ∧
    (∀ a, envE1.steps 1 a = Except.error ()) ∧
    (∀ i, envE1.renders i = some rawA) ∧
    (create_episode_video envE1 agZero 10 nofail).frames.length = 2 ∧
    ¬ (create_episode_video envE1 agZero 10 nofail).frames.length = 2 - 1 :=
  ⟨rfl, fun _ => rfl, fun _ => rfl, by decide, by decide⟩

/-- C1 (amended): if the environment's `step()` raises on the K-th
call (with K-1 ≥ 1, and `render` returning a non-null frame on every
iteration), `create_episode_video` collects exactly K frames — the
frame rendered in the aborted iteration included — still writes a
video artifact from them (writer opened, every frame written,
released), and does not propagate the exception to the caller. -/
theorem C1_early_abort (env : EnvScript) (agent : Agent) (K : Nat)
    (stf : Nat → Nat) (rw : Nat → ℚ) (inf : Nat → Info) (rawf : Nat → RawFrame)
    (i0 : Info) (fuel : Nat)
    (hK : 1 ≤ K - 1) (hfuel : K ≤ fuel)
    (hreset : env.resetInfo = some i0)
    (hrend : ∀ j, j < K → env.renders j = some (rawf j))
    (hstep : ∀ j a, j < K - 1 →
      env.steps j a = Except.ok (stf j, rw j, false, false, some (inf j)))
    (herr : ∀ a, env.steps (K - 1) a = Except.error ()) :
    (create_episode_video env agent fuel nofail).frames.length = K ∧
    (create_episode_video env agent fuel nofail).aborted = true ∧
    (create_episode_video env agent fuel nofail).propagated = false ∧
    ∃ w h, (create_episode_video env agent fuel nofail).events
        = VidEvent.openWriter w h ::
          ((create_episode_video env agent fuel nofail).frames.map VidEvent.write
            ++ [VidEvent.release]) := by
  obtain ⟨hf, htot, hab⟩ := runLoop_abortRun env agent (K - 1) stf rw inf rawf
    fuel (initSt env) i0 (by omega) rfl rfl hreset
    (fun j hj => by simpa [initSt] using hrend j (by omega))
    (fun j a hj => by simpa [initSt] using hstep j a hj)
    (fun a => by simpa [initSt] using herr a)
  have hframes : (create_episode_video env agent fuel nofail).frames
      = (runLoop env agent fuel (initSt env)).1.frames := rfl
  have hne : (create_episode_video env agent fuel nofail).frames ≠ [] := by
    rw [hframes, hf]
    simp [initSt]
  obtain ⟨w, hgt, hev⟩ := writePhase_ne_nil _ hne
  refine ⟨?_, hab, rfl, ⟨w, hgt, hev⟩⟩
  rw [hframes, hf]
  simp [initSt]
  omega

/-- C1 witness: the amended claim at the concrete stub `envE1` with
K = 2: two frames collected, abort recorded, no propagation, full
artifact trace. -/
theorem C1_early_abort_witness :
    (∀ a : Nat, envE1.steps (2 - 1) a = Except.error ()) ∧
    (create_episode_video envE1 agZero 10 nofail).frames.length = 2 ∧
    (create_episode_video envE1 agZero 10 nofail).aborted = true ∧
    (create_episode_video envE1 agZero 10 nofail).propagated = false ∧
    ∃ w h, (create_episode_video envE1 agZero 10 nofail).events
        = VidEvent.openWriter w h ::
          ((create_episode_video envE1 agZero 10 nofail).frames.map VidEvent.write
            ++ [VidEvent.release]) :=
  ⟨fun _ => rfl,
   C1_early_abort envE1 agZero 2 (fun _ => 1) (fun _ => 1) (fun _ => infA)
     (fun _ => rawA) infA 10 (by decide) (by decide) rfl (fun _ _ => rfl)
     (fun j a hj => by
       have hj0 : j = 0 := by omega
       subst hj0
       rfl)
     (fun _ => rfl)⟩

/-- C2 counterexample: `reset` returns a `None` info while `render`
returns a non-null frame and `step` could succeed; the claim says the
fallback accessor recovers the episode even then, but the very first
iteration aborts with zero frames — `info["health"]` raises before the
fallback line is reached. -/
theorem C2_counterexample :
    envE2.resetInfo = none ∧
    envE2.renders 0 = some rawA ∧
    envE2.steps 0 0 = Except.ok (1, 1, false, false, some infA) ∧
    (create_episode_video envE2 agZero 10 nofail).aborted = true ∧
    (create_episode_video envE2 agZero 10 nofail).frames = [] :=
  ⟨rfl, rfl, rfl, by decide, by decide⟩

/-- C2 (amended): the `None`-info fallback accessor recovers the
episode only in iterations whose `render()` result is also null: in
that case the iteration queries `env.unwrapped._get_info()`, selects
the action with the fallback info, steps, and continues.  (When
`render()` returns a non-null frame in the same iteration, the
annotation raises first and the episode aborts instead.) -/
theorem C2_fallback (env : EnvScript) (agent : Agent) (s : LoopSt)
    (st' : Nat) (r : ℚ) (dn tr : Bool) (ni : Option Info)
    (hinfo : s.info = none) (hrend : env.renders s.i = none)
    (hstep : env.steps s.i (agent s.state env.fallbackInfo)
        = Except.ok (st', r, dn, tr, ni)) :
    iterBody env agent s
      = Sum.inl ⟨s.i + 1, st', ni, dn, tr, s.total + r, s.frames⟩ := by
  simp [iterBody, hrend, hinfo, stepPart, hstep]

/-- C2 witness: the amended claim at the concrete stub `envE2n` from
its reset state — the iteration continues (`Sum.inl`) using the
fallback info. -/
theorem C2_fallback_witness :
    (initSt envE2n).info = none ∧
    envE2n.renders (initSt envE2n).i = none ∧
    iterBody envE2n agZero (initSt envE2n)
      = Sum.inl ⟨1, 1, some infA, false, false, 0 + 1, []⟩ :=
  ⟨rfl, rfl, C2_fallback envE2n agZero (initSt envE2n) 1 1 false false
    (some infA) rfl rfl rfl⟩

/-- C3: for an environment that renders non-null frames on every call
and terminates after exactly N steps (terminated/truncated first true
on the N-th step call), `create_episode_video` collects exactly N
frames and writes all of them to the video — the render-before-step
ordering of the source gives the N disjunct of the claim. -/
theorem C3_frame_count (env : EnvScript) (agent : Agent) (N : Nat)
    (stf : Nat → Nat) (rw : Nat → ℚ) (inf : Nat → Info) (d t : Nat → Bool)
    (rawf : Nat → RawFrame) (i0 : Info) (fuel : Nat)
    (hN : 1 ≤ N) (hfuel : N + 1 ≤ fuel)
    (hreset : env.resetInfo = some i0)
    (hrend : ∀ j, j < N → env.renders j = some (rawf j))
    (hstep : ∀ j a, j < N →
      env.steps j a = Except.ok (stf j, rw j, d j, t j, some (inf j)))
    (hflag : ∀ j, j < N - 1 → d j = false ∧ t j = false)
    (hlast : (d (N - 1) || t (N - 1)) = true) :
    (create_episode_video env agent fuel nofail).frames.length = N ∧
    (create_episode_video env agent fuel nofail).aborted = false ∧
    ∃ w h, (create_episode_video env agent fuel nofail).events
        = VidEvent.openWriter w h ::
          ((create_episode_video env agent fuel nofail).frames.map VidEvent.write
            ++ [VidEvent.release]) := by
  obtain ⟨hf, htot, hab⟩ := runLoop_good env agent (N - 1) stf rw inf d t rawf
    fuel (initSt env) i0 (by omega) rfl rfl hreset
    (fun j hj => by simpa [initSt] using hrend j (by omega))
    (fun j a hj => by simpa [initSt] using hstep j a (by omega))
    hflag hlast
  have hframes : (create_episode_video env agent fuel nofail).frames
      = (runLoop env agent fuel (initSt env)).1.frames := rfl
  have hne : (create_episode_video env agent fuel nofail).frames ≠ [] := by
    rw [hframes, hf]
    simp [initSt]
  obtain ⟨w, hgt, hev⟩ := writePhase_ne_nil _ hne
  refine ⟨?_, hab, ⟨w, hgt, hev⟩⟩
  rw [hframes, hf]
  simp [initSt]
  omega

/-- C3 witness: the stub `envE3` renders every call and first reports
`terminated` on its 2nd step call: exactly 2 frames are collected and
written. -/
theorem C3_frame_count_witness :
    ((2 - 1 == 1) || false) = true ∧
    (create_episode_video envE3 agZero 10 nofail).frames.length = 2 ∧
    (create_episode_video envE3 agZero 10 nofail).aborted = false ∧
    ∃ w h, (create_episode_video envE3 agZero 10 nofail).events
        = VidEvent.openWriter w h ::
          ((create_episode_video envE3 agZero 10 nofail).frames.map VidEvent.write
            ++ [VidEvent.release]) :=
  ⟨rfl,
   C3_frame_count envE3 agZero 2 (fun j => j + 1) (fun _ => 1) (fun _ => infA)
     (fun j => j == 1) (fun _ => false) (fun _ => rawA) infA 10
     (by decide) (by decide) rfl (fun _ _ => rfl) (fun _ _ _ => rfl)
     (fun j hj => by
       have hj0 : j = 0 := by omega
       subst hj0
       exact ⟨rfl, rfl⟩)
     rfl⟩

/-- C4: the total reward accumulated by `create_episode_video` equals
the sum of the per-step rewards returned by the environment's `step()`
calls over the whole episode. -/
theorem C4_reward_accumulation (env : EnvScript) (agent : Agent) (N : Nat)
    (stf : Nat → Nat) (rw : Nat → ℚ) (inf : Nat → Info) (d t : Nat → Bool)
    (rawf : Nat → RawFrame) (i0 : Info) (fuel : Nat)
    (hN : 1 ≤ N) (hfuel : N + 1 ≤ fuel)
    (hreset : env.resetInfo = some i0)
    (hrend : ∀ j, j < N → env.renders j = some (rawf j))
    (hstep : ∀ j a, j < N →
      env.steps j a = Except.ok (stf j, rw j, d j, t j, some (inf j)))
    (hflag : ∀ j, j < N - 1 → d j = false ∧ t j = false)
    (hlast : (d (N - 1) || t (N - 1)) = true) :
    (create_episode_video env agent fuel nofail).totalReward
      = ∑ l ∈ Finset.range N, rw l := by
  obtain ⟨hf, htot, hab⟩ := runLoop_good env agent (N - 1) stf rw inf d t rawf
    fuel (initSt env) i0 (by omega) rfl rfl hreset
    (fun j hj => by simpa [initSt] using hrend j (by omega))
    (fun j a hj => by simpa [initSt] using hstep j a (by omega))
    hflag hlast
  have htr : (create_episode_video env agent fuel nofail).totalReward
      = (runLoop env agent fuel (initSt env)).1.total := rfl
  rw [htr, htot]
  have hN1 : N - 1 + 1 = N := by omega
  rw [hN1]
  show (0 : ℚ) + _ = _
  rw [zero_add]

/-- C4 witness: the spec's per-step reward sequence 1.0, -0.5, 2.25
(the stub `envE4`) accumulates to the spec's expected 2.75 = 11/4. -/
theorem C4_reward_accumulation_witness :
    (∀ j a, j < 3 → envE4.steps j a
        = Except.ok (j + 1, rwE4 j, j == 2, false, some infA)) ∧
    (create_episode_video envE4 agZero 10 nofail).totalReward = 11 / 4 :=
  ⟨fun _ _ _ => rfl, by
    have h := C4_reward_accumulation envE4 agZero 3 (fun j => j + 1) rwE4
      (fun _ => infA) (fun j => j == 2) (fun _ => false) (fun _ => rawA) infA 10
      (by decide) (by decide) rfl (fun _ _ => rfl) (fun _ _ _ => rfl)
      (fun j hj => by
        have : j = 0 ∨ j = 1 := by omega
        cases this with
        | inl h0 => subst h0; exact ⟨rfl, rfl⟩
        | inr h1 => subst h1; exact ⟨rfl, rfl⟩)
      rfl
    rw [h]
    rw [Finset.sum_range_succ, Finset.sum_range_succ, Finset.sum_range_one]
    norm_num [rwE4]⟩

/-- C5: if `render()` returns null on every iteration,
`create_episode_video` collects zero frames, opens no video writer and
produces no video artifact, reporting only the "No frames were
captured" warning; moreover every execution of the function whatsoever
opens at most one video writer (writes exactly one video file or
none). -/
theorem C5_zero_frames (env : EnvScript) (agent : Agent) (fuel : Nat)
    (wf : Nat → Bool) (h : ∀ i, env.renders i = none) :
    (create_episode_video env agent fuel wf).frames = [] ∧
    (create_episode_video env agent fuel wf).events = [VidEvent.warnNoFrames] ∧
    openCount (create_episode_video env agent fuel wf).events = 0 ∧
    ∀ (env' : EnvScript) (agent' : Agent) (fuel' : Nat) (wf' : Nat → Bool),
      openCount (create_episode_video env' agent' fuel' wf').events ≤ 1 := by
  have h1 : (runLoop env agent fuel (initSt env)).1.frames = [] :=
    (runLoop_frames_none env agent h fuel (initSt env)).trans rfl
  have hev : (create_episode_video env agent fuel wf).events
      = [VidEvent.warnNoFrames] := by
    show writePhase (runLoop env agent fuel (initSt env)).1.frames wf = _
    rw [h1]
    rfl
  exact ⟨h1, hev, by rw [hev]; rfl,
    fun env' agent' fuel' wf' => openCount_writePhase _ wf'⟩

/-- C5 witness: the always-null-render stub `envE5`. -/
theorem C5_zero_frames_witness :
    (∀ i, envE5.renders i = none) ∧
    ((create_episode_video envE5 agZero 10 nofail).frames = [] ∧
     (create_episode_video envE5 agZero 10 nofail).events
        = [VidEvent.warnNoFrames] ∧
     openCount (create_episode_video envE5 agZero 10 nofail).events = 0 ∧
     ∀ (env' : EnvScript) (agent' : Agent) (fuel' : Nat) (wf' : Nat → Bool),
       openCount (create_episode_video env' agent' fuel' wf').events ≤ 1) :=
  ⟨fun _ => rfl, C5_zero_frames envE5 agZero 10 nofail (fun _ => rfl)⟩

/-- C6: in a good episode, the j-th collected frame carries exactly
four text overlays in the fixed top-left order Health, Hunger, Attack,
Reward at positions (10,20), (10,40), (10,60), (10,80), each value
passed through the one-decimal `:.1f` format; the Reward overlay shows
the running total accumulated before iteration j (the sum of the first
j per-step rewards), not the per-step reward. -/
theorem C6_overlays (env : EnvScript) (agent : Agent) (N : Nat)
    (stf : Nat → Nat) (rw : Nat → ℚ) (inf : Nat → Info) (d t : Nat → Bool)
    (rawf : Nat → RawFrame) (i0 : Info) (fuel : Nat)
    (hN : 1 ≤ N) (hfuel : N + 1 ≤ fuel)
    (hreset : env.resetInfo = some i0)
    (hrend : ∀ j, j < N → env.renders j = some (rawf j))
    (hstep : ∀ j a, j < N →
      env.steps j a = Except.ok (stf j, rw j, d j, t j, some (inf j)))
    (hflag : ∀ j, j < N - 1 → d j = false ∧ t j = false)
    (hlast : (d (N - 1) || t (N - 1)) = true)
    (j : Nat) (hj : j < N) :
    (create_episode_video env agent fuel nofail).frames[j]?
      = some (annotate (rawf j) (consf i0 inf j) (∑ l ∈ Finset.range j, rw l)) ∧
    annotate (rawf j) (consf i0 inf j) (∑ l ∈ Finset.range j, rw l)
      = ⟨(rawf j).height, (rawf j).width,
         [⟨"Health", oneDec ((consf i0 inf j).health), (10, 20)⟩,
          ⟨"Hunger", oneDec ((consf i0 inf j).hunger), (10, 40)⟩,
          ⟨"Attack", oneDec ((consf i0 inf j).attack), (10, 60)⟩,
          ⟨"Reward", oneDec (∑ l ∈ Finset.range j, rw l), (10, 80)⟩]⟩ := by
  obtain ⟨hf, htot, hab⟩ := runLoop_good env agent (N - 1) stf rw inf d t rawf
    fuel (initSt env) i0 (by omega) rfl rfl hreset
    (fun j hj => by simpa [initSt] using hrend j (by omega))
    (fun j a hj => by simpa [initSt] using hstep j a (by omega))
    hflag hlast
  have hframes : (create_episode_video env agent fuel nofail).frames
      = (runLoop env agent fuel (initSt env)).1.frames := rfl
  have hN1 : N - 1 + 1 = N := by omega
  rw [hN1] at hf
  refine ⟨?_, rfl⟩
  rw [hframes, hf]
  simp only [initSt, List.nil_append, List.getElem?_map, List.getElem?_range hj,
    Option.map_some']
  rw [zero_add]

/-- C6 witness: with the stub `envE6` (first reward 7.89), the second
frame's Reward overlay carries the running total 7.89 = 789/100
rounded to 7.9 = 79/10 — and not the per-step reward 0 of that
iteration. -/
theorem C6_overlays_witness :
    (1 : Nat) < 2 ∧
    ((create_episode_video envE6 agZero 10 nofail).frames[1]?
      = some (annotate rawA (consf infA (fun _ => infA) 1)
          (∑ l ∈ Finset.range 1, rwE6 l)) ∧
     annotate rawA (consf infA (fun _ => infA) 1) (∑ l ∈ Finset.range 1, rwE6 l)
      = ⟨rawA.height, rawA.width,
         [⟨"Health", oneDec ((consf infA (fun _ => infA) 1).health), (10, 20)⟩,
          ⟨"Hunger", oneDec ((consf infA (fun _ => infA) 1).hunger), (10, 40)⟩,
          ⟨"Attack", oneDec ((consf infA (fun _ => infA) 1).attack), (10, 60)⟩,
          ⟨"Reward", oneDec (∑ l ∈ Finset.range 1, rwE6 l), (10, 80)⟩]⟩) ∧
    oneDec (∑ l ∈ Finset.range 1, rwE6 l) = 79 / 10 :=
  ⟨by decide,
   C6_overlays envE6 agZero 2 (fun j => j + 1) rwE6 (fun _ => infA)
     (fun j => j == 1) (fun _ => false) (fun _ => rawA) infA 10
     (by decide) (by decide) rfl (fun _ _ => rfl) (fun _ _ _ => rfl)
     (fun j hj => by
       have hj0 : j = 0 := by omega
       subst hj0
       exact ⟨rfl, rfl⟩)
     rfl 1 (by decide),
   by
     rw [Finset.sum_range_one]
     rw [show rwE6 0 = 789 / 100 from rfl]
     rw [oneDec, round_eq]
     norm_num⟩

/-- C7: on every execution of `create_episode_video` — normal
completion, early rollout abort, or a failure while writing individual
frames — either no writer is ever opened (the no-frames warning path)
or the trace opens the writer and ends by releasing it before the
function returns. -/
theorem C7_writer_release (env : EnvScript) (agent : Agent) (fuel : Nat)
    (wf : Nat → Bool) :
    (create_episode_video env agent fuel wf).events = [VidEvent.warnNoFrames] ∨
    ∃ w h ws, (create_episode_video env agent fuel wf).events
        = VidEvent.openWriter w h :: (ws ++ [VidEvent.release]) := by
  cases hr : (runLoop env agent fuel (initSt env)).1.frames with
  | nil =>
      left
      show writePhase (runLoop env agent fuel (initSt env)).1.frames wf = _
      rw [hr]
      rfl
  | cons f fs =>
      right
      refine ⟨f.width, f.height, writeEvents (f :: fs) wf 0, ?_⟩
      show writePhase (runLoop env agent fuel (initSt env)).1.frames wf = _
      rw [hr]
      rfl

/-- C8 counterexample: the stub `envE8` renders a 3×4 frame and then a
2×2 frame in the same episode; `create_episode_video` opens the writer
at the first frame's dimensions and then writes both frames to it
unchanged — the differently-sized second frame is neither rejected nor
normalized, contradicting the claim's validation requirement. -/
theorem C8_counterexample :
    (create_episode_video envE8 agZero 10 nofail).frames.map Frame.height
      = [3, 2] ∧
    (create_episode_video envE8 agZero 10 nofail).frames.map Frame.width
      = [4, 2] ∧
    (create_episode_video envE8 agZero 10 nofail).events
      = VidEvent.openWriter 4 3 ::
        ((create_episode_video envE8 agZero 10 nofail).frames.map VidEvent.write
          ++ [VidEvent.release]) :=
  ⟨rfl, rfl, rfl⟩

/-- C8 (amended): when at least one frame is collected, the video
writer is opened at exactly the first collected frame's (width,
height) — so the artifact resolution equals the first frame's
dimensions — and every collected frame, heterogeneously sized ones
included, is passed to the writer unchanged in order: no size
validation or normalization happens anywhere. -/
theorem C8_resolution (env : EnvScript) (agent : Agent) (fuel : Nat)
    (f : Frame) (fs : List Frame)
    (h : (create_episode_video env agent fuel nofail).frames = f :: fs) :
    (create_episode_video env agent fuel nofail).events
      = VidEvent.openWriter f.width f.height ::
        ((f :: fs).map VidEvent.write ++ [VidEvent.release]) := by
  have hev : (create_episode_video env agent fuel nofail).events
      = writePhase (runLoop env agent fuel (initSt env)).1.frames nofail := rfl
  have h' : (runLoop env agent fuel (initSt env)).1.frames = f :: fs := h
  rw [hev, h']
  simp [writePhase, writeEvents_nofail]

/-- C8 witness: the amended claim at the heterogeneous stub `envE8`:
the writer opens at the 3×4 first frame's dimensions and the 2×2
second frame is written unchanged. -/
theorem C8_resolution_witness :
    (create_episode_video envE8 agZero 10 nofail).frames
      = annotate rawB infA 0 :: [annotate rawC infA (0 + 0)] ∧
    (create_episode_video envE8 agZero 10 nofail).events
      = VidEvent.openWriter (annotate rawB infA 0).width
          (annotate rawB infA 0).height ::
        ((annotate rawB infA 0 :: [annotate rawC infA (0 + 0)]).map
            VidEvent.write ++ [VidEvent.release]) := by
  have h : (create_episode_video envE8 agZero 10 nofail).frames
      = annotate rawB infA 0 :: [annotate rawC infA (0 + 0)] := rfl
  exact ⟨h, C8_resolution envE8 agZero 10 (annotate rawB infA 0)
    [annotate rawC infA (0 + 0)] h⟩

/-- C9: for every state grid in the evaluation-results file,
`plot_state_heatmap` counts at most one agent position — the first
cell equal to 4 in row-major order; grids containing no 4 contribute
nothing; and the count grid is divided by its maximum only when that
maximum is strictly positive, so every in-range heatmap value lies in
[0, 1].  (The in-range hypothesis is the condition under which the
source's `position_counts[x, y] += 1` loop completes without an
IndexError; it holds whenever the recorded grids have the configured
`grid_size`.) -/
theorem C9_state_heatmap (results : List (List (List (List Int)))) (gs : Nat)
    (hin : ∀ p ∈ allPositions results, p.1 < gs ∧ p.2 < gs) :
    (∀ ep ∈ results, (episodePositions ep).length ≤ ep.length) ∧
    (∀ ep ∈ results, ∀ g ∈ ep, (∀ row ∈ g, (4 : Int) ∉ row) →
      findAgent g = none) ∧
    (∀ ep ∈ results, ∀ g ∈ ep, ∀ x y, findAgent g = some (x, y) →
      firstFourAt g x y) ∧
    (∀ x y, x < gs → y < gs →
      0 ≤ heatValue gs (allPositions results) x y ∧
      heatValue gs (allPositions results) x y ≤ 1) := by
  refine ⟨?_, ?_, ?_, ?_⟩
  · intro ep _
    exact List.length_filterMap_le findAgent ep
  · intro ep _ g _ hno
    exact findAgent_eq_none g hno
  · intro ep _ g _ x y h
    exact findAgent_firstFour g x y h
  · intro x y hx hy
    exact heatValue_unit gs (allPositions results) x y hx hy

/-- C9 witness: the stub results file `resultsE9` on a 2×2 grid. -/
theorem C9_state_heatmap_witness :
    (∀ p ∈ allPositions resultsE9, p.1 < 2 ∧ p.2 < 2) ∧
    ((∀ ep ∈ resultsE9, (episodePositions ep).length ≤ ep.length) ∧
     (∀ ep ∈ resultsE9, ∀ g ∈ ep, (∀ row ∈ g, (4 : Int) ∉ row) →
       findAgent g = none) ∧
     (∀ ep ∈ resultsE9, ∀ g ∈ ep, ∀ x y, findAgent g = some (x, y) →
       firstFourAt g x y) ∧
     (∀ x y, x < 2 → y < 2 →
       0 ≤ heatValue 2 (allPositions resultsE9) x y ∧
       heatValue 2 (allPositions resultsE9) x y ≤ 1)) :=
  ⟨by decide, C9_state_heatmap resultsE9 2 (by decide)⟩

/-- C10: when `main` is called with both `save_dir` and `timestamp`
absent, lines 213-214 leave the save directory `None`, the
`Visualizer` constructor's `os.makedirs(None)` call raises
`TypeError`, and the run terminates with that error before any output
file is produced — a save directory derivable from `save_dir` or
`timestamp` is a precondition of `main`. -/
theorem C10_save_dir_required :
    resolveSaveDir none none = none ∧
    makedirs (resolveSaveDir none none) = Except.error "TypeError" ∧
    ∀ (tb_ok eval_ok model_ok : Bool),
      (mainRun tb_ok eval_ok model_ok none none).outcome
          = Except.error "TypeError" ∧
      (mainRun tb_ok eval_ok model_ok none none).filesWritten = [] :=
  ⟨rfl, rfl, fun _ _ _ => ⟨rfl, rfl⟩⟩
